import Mathlib

/-!
Verification development for the `python-harvest` repository.

The file shallowly embeds `src/harvest/harvest.py`: the `Harvest` class
(constructor, auth-mode selection, the `_request` dispatcher, the contact
wrappers and the `invoices` pagination loop) and the module-level `status`
function.  The HTTP transport is modelled as an oracle
`Transport : HttpRequest → HttpOutcome`, and every embedded method also
returns the list of HTTP requests it issued and the instance state after the
call, so that call counts and frame properties are expressible.
-/

/-- Truthiness of a Python optional string argument: `None` and the empty
string are falsy (the constructor tests `if email and password:`). -/
def truthy : Option String → Bool
  | none => false
  | some s => s ≠ ""

/-- Python `s.rstrip(c)`: remove every trailing occurrence of `c`. -/
def pyRstrip (s : String) (c : Char) : String :=
  String.mk ((s.toList.reverse.dropWhile (fun x => x = c)).reverse)

/-- Python 2 whitespace characters as used by `str.strip()`. -/
def pyIsSpace (c : Char) : Bool :=
  c = ' ' ∨ c = '\t' ∨ c = '\n' ∨ c = '\r' ∨ c.toNat = 11 ∨ c.toNat = 12

/-- Python `s.strip()`: remove leading and trailing whitespace. -/
def pyStrip (s : String) : String :=
  String.mk (((s.toList.dropWhile pyIsSpace).reverse.dropWhile pyIsSpace).reverse)

/-- UTF-8 encoding of one character, as a list of byte values. -/
def charUtf8 (c : Char) : List Nat :=
  let n := c.toNat
  if n < 128 then [n]
  else if n < 2048 then [192 + n / 64, 128 + n % 64]
  else if n < 65536 then [224 + n / 4096, 128 + n / 64 % 64, 128 + n % 64]
  else [240 + n / 262144, 128 + n / 4096 % 64, 128 + n / 64 % 64, 128 + n % 64]

/-- The bytes of a string (UTF-8). -/
def utf8Bytes (s : String) : List Nat :=
  (s.toList.map charUtf8).flatten

/-- The base64 alphabet. -/
def b64Alphabet : List Char :=
  "ABCDEFGHIJKLMNOPQRSTUVWXYZabcdefghijklmnopqrstuvwxyz0123456789+/".toList

/-- The base64 digit for a 6-bit value. -/
def b64Char (n : Nat) : Char := b64Alphabet.getD n 'A'

/-- Standard base64 encoding of a byte list (with `=` padding), as in
the Python function `base64.b64encode`. -/
def b64encodeBytes : List Nat → List Char
  | [] => []
  | [a] => [b64Char (a / 4), b64Char (a % 4 * 16), '=', '=']
  | [a, b] => [b64Char (a / 4), b64Char (a % 4 * 16 + b / 16), b64Char (b % 16 * 4), '=']
  | a :: b :: c :: rest =>
    b64Char (a / 4) :: b64Char (a % 4 * 16 + b / 16) ::
      b64Char (b % 16 * 4 + c / 64) :: b64Char (c % 64) :: b64encodeBytes rest

/-- Python `base64.b64encode` on a string, as used for the Authorization header. -/
def b64encode (s : String) : String :=
  String.mk (b64encodeBytes (utf8Bytes s))

/-- Exceptions that can arise in the embedded code.  `harvestWrap` is
`HarvestError(exc)` built from an original exception; `harvestError` is
`HarvestError(message)` raised by the constructor; `transport` stands for an
arbitrary exception raised by the HTTP library. -/
inductive Exc where
  | valueError (msg : String)
  | attributeError (msg : String)
  | typeError (msg : String)
  | transport (msg : String)
  | harvestError (msg : String)
  | harvestWrap (cause : Exc)
deriving DecidableEq

/-- The characters allowed in a URL scheme by `urlparse` (CPython 2.7
`scheme_chars`). -/
def schemeChars : List Char :=
  "abcdefghijklmnopqrstuvwxyzABCDEFGHIJKLMNOPQRSTUVWXYZ0123456789+-.".toList

/-- CPython `urlparse._splitnetloc`: the netloc is everything up to the first
of `/`, `?` or `#`. -/
def splitnetlocGo : List Char → List Char
  | [] => []
  | c :: rest => if c = '/' ∨ c = '?' ∨ c = '#' then [] else c :: splitnetlocGo rest

/-- The scheme and netloc components computed by the CPython 2.7 function
`urlparse.urlsplit` (the only components the constructor inspects).  A netloc
with mismatched square brackets makes `urlsplit` raise
`ValueError("Invalid IPv6 URL")`. -/
def urlsplitSN (url : String) : Except Exc (String × String) :=
  let l := url.toList
  let sr : List Char × List Char :=
    match l.findIdx? (fun c => c = ':') with
    | some i =>
      if 0 < i then
        let pre := l.take i
        let post := l.drop (i + 1)
        if pre = "http".toList then
          (pre.map Char.toLower, post)
        else if pre.all (fun c => schemeChars.contains c) &&
                (post.isEmpty || !(post.all Char.isDigit)) then
          (pre.map Char.toLower, post)
        else ([], l)
      else ([], l)
    | none => ([], l)
  let scheme := sr.1
  let rest := sr.2
  if rest.take 2 = ['/', '/'] then
    let netloc := splitnetlocGo (rest.drop 2)
    if (netloc.contains '[' && !netloc.contains ']') ||
       (netloc.contains ']' && !netloc.contains '[') then
      Except.error (Exc.valueError "Invalid IPv6 URL")
    else
      Except.ok (String.mk scheme, String.mk netloc)
  else
    Except.ok (String.mk scheme, "")

/-- Authentication modes the constructor can record in `self.__auth`. -/
inductive AuthMode where
  | basic
  | oauth2
deriving DecidableEq

/-- The fields of a `Harvest` instance.  Attributes that `__init__` may leave
unset are `Option`s with `none` meaning "attribute never assigned". -/
structure Harvest where
  uri : String
  headers : List (String × String)
  auth : Option AuthMode
  email : Option String
  password : Option String
  client_id : Option String
  token : Option String

/-- Lookup in an association list of headers (Python `dict` access /
`in` test). -/
def lookupHeader : List (String × String) → String → Option String
  | [], _ => none
  | kv :: rest, k => if kv.1 = k then some kv.2 else lookupHeader rest k

/-- The three headers `__init__` always installs, in insertion order. -/
def baseHeaders : List (String × String) :=
  [("Content-Type", "application/json"),
   ("Accept", "application/json"),
   ("User-Agent", "Mozilla/5.0")]

/-- Model of `Harvest.__init__`: validate the uri with `urlparse`, store the uri with
trailing slashes stripped, build the headers, and select the auth mode from
the supplied credentials.  Raising in `__init__` is modelled as
`Except.error`. -/
def harvestInit (uri : String) (email password client_id token : Option String)
    (put_auth_in_header : Bool) : Except Exc Harvest :=
  let u := pyRstrip uri '/'
  match urlsplitSN uri with
  | Except.error e => Except.error e
  | Except.ok sn =>
    if sn.1 = "" ∨ sn.2 = "" then
      Except.error (Exc.harvestError ("Invalid harvest uri \x22" ++ uri ++ "\x22."))
    else if truthy email && truthy password then
      let e := pyStrip (email.getD "")
      let p := password.getD ""
      let headers :=
        if put_auth_in_header then
          baseHeaders ++ [("Authorization", "Basic " ++ b64encode (e ++ ":" ++ p))]
        else baseHeaders
      Except.ok { uri := u, headers := headers, auth := some AuthMode.basic,
                  email := some e, password := some p, client_id := none, token := none }
    else if truthy client_id && truthy token then
      Except.ok { uri := u, headers := baseHeaders, auth := some AuthMode.oauth2,
                  email := none, password := none, client_id := client_id, token := token }
    else
      Except.ok { uri := u, headers := baseHeaders, auth := none,
                  email := none, password := none, client_id := none, token := none }

/-- JSON values, the result of decoding a response body. -/
inductive Json where
  | null
  | bool (b : Bool)
  | num (n : Int)
  | str (s : String)
  | arr (xs : List Json)
  | obj (kvs : List (String × Json))

/-- Hexadecimal digit, lower-case. -/
def hexDigit (n : Nat) : Char := "0123456789abcdef".toList.getD n '0'

/-- The escape sequence `json.dumps` emits for one character
(`ensure_ascii` behaviour, surrogate pairs for astral characters). -/
def escapeJsonChar (c : Char) : List Char :=
  if c = '"' then ['\\', '"']
  else if c = '\\' then ['\\', '\\']
  else if c = '\n' then ['\\', 'n']
  else if c = '\t' then ['\\', 't']
  else if c = '\r' then ['\\', 'r']
  else if c.toNat = 8 then ['\\', 'b']
  else if c.toNat = 12 then ['\\', 'f']
  else if c.toNat < 32 ∨ (126 < c.toNat ∧ c.toNat < 65536) then
    ['\\', 'u', hexDigit (c.toNat / 4096 % 16), hexDigit (c.toNat / 256 % 16),
     hexDigit (c.toNat / 16 % 16), hexDigit (c.toNat % 16)]
  else if 65535 < c.toNat then
    let n := c.toNat - 65536
    let hi := 55296 + n / 1024
    let lo := 56320 + n % 1024
    ['\\', 'u', hexDigit (hi / 4096 % 16), hexDigit (hi / 256 % 16),
     hexDigit (hi / 16 % 16), hexDigit (hi % 16),
     '\\', 'u', hexDigit (lo / 4096 % 16), hexDigit (lo / 256 % 16),
     hexDigit (lo / 16 % 16), hexDigit (lo % 16)]
  else [c]

/-- A JSON string literal as `json.dumps` renders it. -/
def dumpStr (s : String) : String :=
  "\x22" ++ String.mk ((s.toList.map escapeJsonChar).flatten) ++ "\x22"

mutual

/-- Python `json.dumps` of a JSON value (default separators `", "` and `": "`). -/
def dumpJson : Json → String
  | Json.null => "null"
  | Json.bool true => "true"
  | Json.bool false => "false"
  | Json.num n => toString n
  | Json.str s => dumpStr s
  | Json.arr xs => "[" ++ dumpArr xs ++ "]"
  | Json.obj kvs => "\x7b" ++ dumpObj kvs ++ "\x7d"

/-- Python `json.dumps` of the elements of an array, comma separated. -/
def dumpArr : List Json → String
  | [] => ""
  | [x] => dumpJson x
  | x :: y :: rest => dumpJson x ++ ", " ++ dumpArr (y :: rest)

/-- Python `json.dumps` of the entries of an object, comma separated. -/
def dumpObj : List (String × Json) → String
  | [] => ""
  | [kv] => dumpStr kv.1 ++ ": " ++ dumpJson kv.2
  | kv :: y :: rest => dumpStr kv.1 ++ ": " ++ dumpJson kv.2 ++ ", " ++ dumpObj (y :: rest)

end

/-- Python `json.dumps(data)` for the request body; `data=None` serialises to
`"null"`. -/
def jsonDumps : Option Json → String
  | none => "null"
  | some j => dumpJson j

/-- An HTTP response object as returned by the `requests` library: its status
code, its raw body, and the result of `resp.json()` (`none` when decoding the
body raises). -/
structure Response where
  status : Nat
  body : String
  json : Option Json

/-- Python truthiness of a `requests.Response`: `bool(resp)` is `resp.ok`,
i.e. the status code is below 400. -/
def Response.ok (r : Response) : Bool := r.status < 400

/-- A value `_request` can return: the decoded JSON body, or the raw response
object when the body is not decoded. -/
inductive PyVal where
  | json (j : Json)
  | response (r : Response)

/-- Python truthiness of a decoded JSON value. -/
def Json.truthy : Json → Bool
  | Json.null => false
  | Json.bool b => b
  | Json.num n => n ≠ 0
  | Json.str s => s ≠ ""
  | Json.arr xs => !xs.isEmpty
  | Json.obj kvs => !kvs.isEmpty

/-- Python truthiness of a `_request` result (`if not invoice_set`). -/
def PyVal.truthy : PyVal → Bool
  | PyVal.json j => j.truthy
  | PyVal.response r => r.ok

/-- Which library object performs the call: the `requests` module itself
(basic mode) or an `OAuth2Session` built from the stored client id and
token. -/
inductive Requestor where
  | plain
  | oauth2 (client_id : String) (token : String)
deriving DecidableEq

/-- The keyword arguments `_request` hands to `requestor.request`, plus the
requestor object itself. -/
structure HttpRequest where
  requestor : Requestor
  method : String
  url : String
  headers : List (String × String)
  body : String
  auth : Option (String × String)

/-- The outcome of the underlying HTTP call: a response object, or an
exception raised by the library. -/
inductive HttpOutcome where
  | ok (r : Response)
  | exn (e : Exc)

/-- The HTTP transport, modelled as an oracle from requests to outcomes. -/
abbrev Transport := HttpRequest → HttpOutcome

/-- The output of one embedded method call: the returned value or raised
exception, the list of HTTP requests issued, and the state of the instance
after the call. -/
structure RequestOut where
  result : Except Exc PyVal
  trace : List HttpRequest
  self : Harvest

/-- Python substring containment `sub in s` (here: the `DELETE not in method`
test), on character lists. -/
def containsSub (sub : List Char) : List Char → Bool
  | [] => sub.isPrefixOf []
  | c :: rest => sub.isPrefixOf (c :: rest) || containsSub sub rest

/-- The `kwargs` record `_request` builds before dispatching, given the auth
mode read from `self.auth`: the url is the stored uri concatenated with the
path, the body is `json.dumps(data)`, and in basic mode the `auth` tuple is
passed exactly when no Authorization header is present. -/
def Harvest.builtRequest (h : Harvest) (mode : AuthMode) (method path : String)
    (data : Option Json) : HttpRequest :=
  match mode with
  | AuthMode.basic =>
    { requestor := Requestor.plain, method := method, url := h.uri ++ path,
      headers := h.headers, body := jsonDumps data,
      auth := if (lookupHeader h.headers "Authorization").isNone then
                some (h.email.getD "", h.password.getD "")
              else none }
  | AuthMode.oauth2 =>
    { requestor := Requestor.oauth2 (h.client_id.getD "") (h.token.getD ""),
      method := method, url := h.uri ++ path,
      headers := h.headers, body := jsonDumps data, auth := none }

/-- Model of `Harvest._request`.  Reading `self.auth` happens before the `try` block,
so a missing `__auth` attribute raises `AttributeError` with no request
issued.  On a transport exception the original exception is wrapped in
`HarvestError`.  On a response, methods not containing `DELETE` return
`resp.json()` and fall back to the raw response when decoding raises;
methods containing `DELETE` return the raw response directly. -/
def Harvest.request (t : Transport) (h : Harvest) (method path : String)
    (data : Option Json) : RequestOut :=
  match h.auth with
  | none =>
    { result := Except.error (Exc.attributeError "_Harvest__auth"), trace := [], self := h }
  | some mode =>
    let req := h.builtRequest mode method path data
    match t req with
    | HttpOutcome.exn e =>
      { result := Except.error (Exc.harvestWrap e), trace := [req], self := h }
    | HttpOutcome.ok resp =>
      if containsSub "DELETE".toList method.toList then
        { result := Except.ok (PyVal.response resp), trace := [req], self := h }
      else
        match resp.json with
        | some j => { result := Except.ok (PyVal.json j), trace := [req], self := h }
        | none => { result := Except.ok (PyVal.response resp), trace := [req], self := h }

/-- Model of `Harvest._get(path)` = `_request(GET, path, None)`. -/
def Harvest.getReq (t : Transport) (h : Harvest) (path : String) (data : Option Json) :
    RequestOut :=
  h.request t "GET" path data

/-- Model of `Harvest._post(path, data)` = `_request(POST, path, data)`. -/
def Harvest.postReq (t : Transport) (h : Harvest) (path : String) (data : Option Json) :
    RequestOut :=
  h.request t "POST" path data

/-- Model of `Harvest._put(path, data)` = `_request(PUT, path, data)`. -/
def Harvest.putReq (t : Transport) (h : Harvest) (path : String) (data : Option Json) :
    RequestOut :=
  h.request t "PUT" path data

/-- Model of `Harvest._delete(path)` = `_request(DELETE, path, None)`. -/
def Harvest.deleteReq (t : Transport) (h : Harvest) (path : String) (data : Option Json) :
    RequestOut :=
  h.request t "DELETE" path data

/-- Model of `Harvest.contacts(updated_since=None)`: `/contacts`, with the query
string appended when `updated_since is not None`. -/
def Harvest.contacts (t : Transport) (h : Harvest) (updated_since : Option String) :
    RequestOut :=
  match updated_since with
  | none => h.getReq t "/contacts" none
  | some d => h.getReq t ("/contacts" ++ "?updated_since=" ++ d) none

/-- Model of `Harvest.get_contact(contact_id)`: GET `/contacts/{contact_id}`. -/
def Harvest.get_contact (t : Transport) (h : Harvest) (contact_id : String) : RequestOut :=
  h.getReq t ("/contacts/" ++ contact_id) none

/-- Model of `Harvest.update_contact(contact_id, **kwargs)`: PUT
`/contacts/{contact_id}` with the keyword arguments as payload. -/
def Harvest.update_contact (t : Transport) (h : Harvest) (contact_id : String)
    (kwargs : List (String × Json)) : RequestOut :=
  h.putReq t ("/contacts/" ++ contact_id) (some (Json.obj kwargs))

/-- Model of `Harvest.delete_contact(contact_id)`: DELETE `/contacts/{contact_id}`. -/
def Harvest.delete_contact (t : Transport) (h : Harvest) (contact_id : String) : RequestOut :=
  h.deleteReq t ("/contacts/" ++ contact_id) none

/-- Model of `Harvest.get_invoice(invoice_id)`: GET `/invoices/{invoice_id}`. -/
def Harvest.get_invoice (t : Transport) (h : Harvest) (invoice_id : String) : RequestOut :=
  h.getReq t ("/invoices/" ++ invoice_id) none

/-- The filter keyword arguments `invoices` accepts (besides `pages`);
`none` means the keyword was not passed. -/
structure InvoiceFilters where
  start_date : Option String
  end_date : Option String
  status_enum : Option String
  updated_since : Option String

/-- The `pages` keyword of `invoices`: absent (so `count(start=1)`, all pages
until an empty one) or an explicit list of page numbers. -/
inductive PagesArg where
  | countFrom1
  | explicit (ps : List Int)

/-- The `formatted_args` string of `invoices`: the passed truthy filters
rendered through the `formats` table and joined with `&`. -/
def invoiceFormattedArgs (kw : InvoiceFilters) : String :=
  String.intercalate "&"
    (List.filterMap
      (fun kv => match kv.2 with
        | none => none
        | some v => if v ≠ "" then some (kv.1 ++ "=" ++ v) else none)
      [("from", kw.start_date), ("to", kw.end_date),
       ("status", kw.status_enum), ("updated_since", kw.updated_since)])

/-- Model of `formatted_args and ("&" + formatted_args)`: empty when no filter was
rendered, otherwise prefixed with `&`. -/
def invoiceQs (kw : InvoiceFilters) : String :=
  let f := invoiceFormattedArgs kw
  if f = "" then "" else "&" ++ f

/-- Model of `invoices += invoice_set`: Python list extension by an arbitrary value.
Arrays extend element-wise; a dict iterates its keys; a string iterates its
characters; a raw `requests.Response` iterates its body (modelled as one
chunk); any other value raises `TypeError`. -/
def pyExtend (acc : List Json) : PyVal → Except Exc (List Json)
  | PyVal.json (Json.arr xs) => Except.ok (acc ++ xs)
  | PyVal.json (Json.obj kvs) => Except.ok (acc ++ kvs.map (fun kv => Json.str kv.1))
  | PyVal.json (Json.str s) => Except.ok (acc ++ s.toList.map (fun c => Json.str (String.mk [c])))
  | PyVal.response r => Except.ok (acc ++ [Json.str r.body])
  | _ => Except.error (Exc.typeError "object is not iterable")

/-- The `for page in pages` loop of `invoices` with the default
`count(start=1)` iterator, run with explicit fuel: `none` means the fuel ran
out before the loop broke.  Each iteration GETs one page, breaks on a falsy
result, and otherwise extends the accumulator and continues with the next
page number. -/
def invoicesLoop (t : Transport) (h : Harvest) (qs : String) :
    Nat → Nat → List Json → List HttpRequest →
    Option (Except Exc (List Json) × List HttpRequest × Harvest)
  | 0, _, _, _ => none
  | fuel + 1, page, acc, tr =>
    let r := h.request t "GET" ("/invoices?page=" ++ toString page ++ qs) none
    match r.result with
    | Except.error e => some (Except.error e, tr ++ r.trace, r.self)
    | Except.ok v =>
      if v.truthy then
        match pyExtend acc v with
        | Except.error e => some (Except.error e, tr ++ r.trace, r.self)
        | Except.ok acc2 => invoicesLoop t r.self qs fuel (page + 1) acc2 (tr ++ r.trace)
      else some (Except.ok acc, tr ++ r.trace, r.self)

/-- The `for page in pages` loop of `invoices` when an explicit list of page
numbers was passed; the loop also ends when the list is exhausted. -/
def invoicesLoopList (t : Transport) (h : Harvest) (qs : String) :
    List Int → List Json → List HttpRequest →
    Except Exc (List Json) × List HttpRequest × Harvest
  | [], acc, tr => (Except.ok acc, tr, h)
  | p :: ps, acc, tr =>
    let r := h.request t "GET" ("/invoices?page=" ++ toString p ++ qs) none
    match r.result with
    | Except.error e => (Except.error e, tr ++ r.trace, r.self)
    | Except.ok v =>
      if v.truthy then
        match pyExtend acc v with
        | Except.error e => (Except.error e, tr ++ r.trace, r.self)
        | Except.ok acc2 => invoicesLoopList t r.self qs ps acc2 (tr ++ r.trace)
      else (Except.ok acc, tr ++ r.trace, r.self)

/-- Model of `Harvest.invoices(**kwargs)`: pop `pages` (default `count(start=1)`),
render the filter query string, and run the page loop. -/
def Harvest.invoices (t : Transport) (h : Harvest) (kw : InvoiceFilters)
    (pagesArg : PagesArg) (fuel : Nat) :
    Option (Except Exc (List Json) × List HttpRequest × Harvest) :=
  let qs := invoiceQs kw
  match pagesArg with
  | PagesArg.countFrom1 => invoicesLoop t h qs fuel 1 [] []
  | PagesArg.explicit ps => some (invoicesLoopList t h qs ps [] [])

/-- Lookup in a decoded JSON object (Python `dict.get`). -/
def jsonLookup : List (String × Json) → String → Option Json
  | [], _ => none
  | kv :: rest, k => if kv.1 = k then some kv.2 else jsonLookup rest k

/-- The outcome of `requests.get(HARVEST_STATUS_URL)` in the module-level
`status` function: a response object or a raised exception. -/
inductive GetOutcome where
  | ok (r : Response)
  | exn (e : Exc)

/-- The module-level `status` function:
`requests.get(...).json().get(status, ...)` with a bare `except` returning
`{}`.  A body that does not decode, a decoded value that is not a dict
(whose `.get` raises `AttributeError`), or a raised request all fall into the
`except` branch; a dict without the key yields the `{}` default. -/
def status (o : GetOutcome) : Json :=
  match o with
  | GetOutcome.exn _ => Json.obj []
  | GetOutcome.ok r =>
    match r.json with
    | none => Json.obj []
    | some (Json.obj kvs) => (jsonLookup kvs "status").getD (Json.obj [])
    | some _ => Json.obj []

/-! ## Concrete fixtures used by counterexamples and witnesses -/

/-- A concrete basic-auth instance, as produced by
`Harvest(uri, email, password)` at uri `http://x`, email `e@x`, password `p`. -/
def exampleHarvest : Harvest :=
  { uri := "http://x",
    headers := baseHeaders ++ [("Authorization", "Basic " ++ b64encode "e@x:p")],
    auth := some AuthMode.basic, email := some "e@x", password := some "p",
    client_id := none, token := none }

/-- A concrete response whose body decodes to the empty JSON array. -/
def respOkArr : Response := { status := 200, body := "[]", json := some (Json.arr []) }

/-- A transport that always returns `respOkArr`. -/
def t1 : Transport := fun _ => HttpOutcome.ok respOkArr

/-- A transport whose every call raises a transport exception. -/
def tExn : Transport := fun _ => HttpOutcome.exn (Exc.transport "boom")

/-- A transport serving one non-empty invoice page followed by empty pages. -/
def t4 : Transport := fun r =>
  if r.url = "http://x/invoices?page=1" then
    HttpOutcome.ok { status := 200, body := "[null]", json := some (Json.arr [Json.null]) }
  else
    HttpOutcome.ok respOkArr

/-- The `invoices` call with no filter keywords. -/
def noFilters : InvoiceFilters := { start_date := none, end_date := none,
                                    status_enum := none, updated_since := none }

/-! ## Claims -/

/-- Claim C1, counterexample.  The claim says `_request` returns the raw
response object exactly when JSON decoding of the body fails, for every HTTP
method.  For method `DELETE` the code skips decoding entirely
(the `DELETE not in method` test), so here a DELETE whose body decodes fine
(`respOkArr.json` is `some`) still returns the raw response object. -/
theorem delete_returns_raw_despite_decodable_body :
    (exampleHarvest.request t1 "DELETE" "/contacts/1" none).result =
      Except.ok (PyVal.response respOkArr) ∧
    respOkArr.json = some (Json.arr []) :=
  ⟨rfl, rfl⟩

/-- Claim C1, amended.  For every method, path and payload, when the
underlying HTTP call returns a response: if the method does not contain the
substring `DELETE`, `_request` returns the JSON-decoded body, and the raw
response object exactly when decoding fails; if the method contains
`DELETE`, `_request` returns the raw response object without attempting to
decode. -/
theorem request_result_by_method_and_decoding (t : Transport) (h : Harvest)
    (mode : AuthMode) (method path : String) (data : Option Json) (resp : Response)
    (hm : h.auth = some mode)
    (hok : t (h.builtRequest mode method path data) = HttpOutcome.ok resp) :
    (h.request t method path data).result =
      if containsSub "DELETE".toList method.toList then
        Except.ok (PyVal.response resp)
      else
        match resp.json with
        | some j => Except.ok (PyVal.json j)
        | none => Except.ok (PyVal.response resp) := by
  simp only [Harvest.request, hm, hok]
  split
  · rfl
  · cases resp.json <;> rfl

/-- Witness for the amended claim C1 at a concrete GET with a decodable
body. -/
theorem request_result_by_method_and_decoding_witness :
    (exampleHarvest.request t1 "GET" "/contacts/1" none).result =
      (if containsSub "DELETE".toList "GET".toList then
        Except.ok (PyVal.response respOkArr)
      else
        match respOkArr.json with
        | some j => Except.ok (PyVal.json j)
        | none => Except.ok (PyVal.response respOkArr)) :=
  request_result_by_method_and_decoding t1 exampleHarvest AuthMode.basic
    "GET" "/contacts/1" none respOkArr rfl rfl

/-- Claim C2.  Given an auth mode, if the underlying HTTP call raises an
exception, `_request` raises `HarvestError` built from that original
exception; conversely every exception `_request` raises out of the dispatch
is such a wrapped `HarvestError`. -/
theorem request_wraps_transport_exceptions (t : Transport) (h : Harvest)
    (mode : AuthMode) (method path : String) (data : Option Json)
    (hm : h.auth = some mode) :
    (∀ e, t (h.builtRequest mode method path data) = HttpOutcome.exn e →
      (h.request t method path data).result = Except.error (Exc.harvestWrap e)) ∧
    (∀ e2, (h.request t method path data).result = Except.error e2 →
      ∃ e, e2 = Exc.harvestWrap e ∧
        t (h.builtRequest mode method path data) = HttpOutcome.exn e) := by
  constructor
  · intro e he
    simp [Harvest.request, hm, he]
  · intro e2 he2
    cases ho : t (h.builtRequest mode method path data) with
    | exn e =>
      refine ⟨e, ?_, rfl⟩
      simp [Harvest.request, hm, ho] at he2
      exact he2.symm
    | ok resp =>
      exfalso
      simp only [Harvest.request, hm, ho] at he2
      split at he2
      · simp at he2
      · cases hr : resp.json <;> rw [hr] at he2 <;> simp at he2

/-- Witness for claim C2 at a concrete transport that raises. -/
theorem request_wraps_transport_exceptions_witness :
    (exampleHarvest.request tExn "GET" "/contacts/1" none).result =
      Except.error (Exc.harvestWrap (Exc.transport "boom")) :=
  (request_wraps_transport_exceptions tExn exampleHarvest AuthMode.basic
    "GET" "/contacts/1" none rfl).1 (Exc.transport "boom") rfl

/-- The Authorization header is found when it was appended to the base
headers. -/
theorem lookupHeader_authorization (v : String) :
    lookupHeader (baseHeaders ++ [("Authorization", v)]) "Authorization" = some v := rfl

/-- The base headers contain no Authorization entry. -/
theorem lookupHeader_base : lookupHeader baseHeaders "Authorization" = none := rfl

/-- Claim C3.  For every successful construction: when both email and
password are supplied (truthy), the auth mode is Basic, the stored email is
stripped of surrounding whitespace, and with `put_auth_in_header` the
Authorization header is `Basic` and a space followed by the base64 encoding of
`email:password`; otherwise when both client id and token are supplied the
mode is OAuth2.  `_request` then dispatches through the plain `requests`
module in Basic mode — passing the `(email, password)` tuple exactly when no
Authorization header is present — and through an `OAuth2Session` built from
the stored client id and token in OAuth2 mode. -/
theorem init_auth_mode_selection (uri : String)
    (email password client_id token : Option String) (flag : Bool) (h : Harvest)
    (hinit : harvestInit uri email password client_id token flag = Except.ok h) :
    ((truthy email && truthy password) = true →
      h.auth = some AuthMode.basic ∧
      h.email = some (pyStrip (email.getD "")) ∧
      h.password = some (password.getD "") ∧
      (flag = true →
        lookupHeader h.headers "Authorization" =
          some ("Basic " ++ b64encode (pyStrip (email.getD "") ++ ":" ++ password.getD ""))) ∧
      (flag = false → lookupHeader h.headers "Authorization" = none) ∧
      (∀ method path data,
        (h.builtRequest AuthMode.basic method path data).requestor = Requestor.plain ∧
        (flag = false →
          (h.builtRequest AuthMode.basic method path data).auth =
            some (pyStrip (email.getD ""), password.getD "")))) ∧
    ((truthy email && truthy password) = false →
      (truthy client_id && truthy token) = true →
      h.auth = some AuthMode.oauth2 ∧
      (∀ method path data,
        (h.builtRequest AuthMode.oauth2 method path data).requestor =
          Requestor.oauth2 (client_id.getD "") (token.getD ""))) := by
  cases hu : urlsplitSN uri with
  | error e => simp only [harvestInit, hu] at hinit; cases hinit
  | ok sn =>
    simp only [harvestInit, hu] at hinit
    by_cases hv : sn.1 = "" ∨ sn.2 = ""
    · rw [if_pos hv] at hinit; cases hinit
    · rw [if_neg hv] at hinit
      cases hbp : (truthy email && truthy password) with
      | true =>
        rw [hbp] at hinit
        simp only [if_true] at hinit
        constructor
        · intro _
          cases flag with
          | true =>
            rw [if_pos rfl] at hinit
            injection hinit with hh
            subst hh
            refine ⟨rfl, rfl, rfl, ?_, ?_, ?_⟩
            · intro _; exact lookupHeader_authorization _
            · intro hf; cases hf
            · intro method path data
              refine ⟨rfl, ?_⟩
              intro hf; cases hf
          | false =>
            rw [if_neg (by simp)] at hinit
            injection hinit with hh
            subst hh
            refine ⟨rfl, rfl, rfl, ?_, ?_, ?_⟩
            · intro hf; cases hf
            · intro _; exact lookupHeader_base
            · intro method path data
              refine ⟨rfl, ?_⟩
              intro _
              simp [Harvest.builtRequest, lookupHeader_base]
        · intro hbf; cases hbf
      | false =>
        rw [hbp] at hinit
        simp only [if_false, Bool.false_eq_true] at hinit
        constructor
        · intro hbt; cases hbt
        · intro _ hct
          rw [hct] at hinit
          simp only [if_true] at hinit
          injection hinit with hh
          subst hh
          exact ⟨rfl, fun method path data => rfl⟩

/-- Witness for claim C3: the concrete basic-auth construction. -/
theorem init_auth_mode_selection_witness :
    exampleHarvest.auth = some AuthMode.basic ∧
    lookupHeader exampleHarvest.headers "Authorization" =
      some ("Basic " ++
        b64encode (pyStrip ((some "e@x").getD "") ++ ":" ++ (some "p").getD "")) :=
  have hmain := init_auth_mode_selection "http://x" (some "e@x") (some "p")
    none none true exampleHarvest rfl
  have hb := hmain.1 rfl
  ⟨hb.1, hb.2.2.2.1 rfl⟩

/-- Given an auth mode, `_request` issues exactly the one request it built. -/
theorem request_trace_single (t : Transport) (h : Harvest) (mode : AuthMode)
    (method path : String) (data : Option Json) (hm : h.auth = some mode) :
    (h.request t method path data).trace = [h.builtRequest mode method path data] := by
  simp only [Harvest.request, hm]
  cases t (h.builtRequest mode method path data) with
  | exn e => rfl
  | ok resp =>
    dsimp only
    split
    · rfl
    · cases resp.json <;> rfl

/-- Lemma: `_request` leaves the instance unchanged on every path. -/
theorem request_self (t : Transport) (h : Harvest) (method path : String)
    (data : Option Json) : (h.request t method path data).self = h := by
  cases ha : h.auth with
  | none => simp only [Harvest.request, ha]
  | some mode =>
    simp only [Harvest.request, ha]
    cases t (h.builtRequest mode method path data) with
    | exn e => rfl
    | ok resp =>
      dsimp only
      split
      · rfl
      · cases resp.json <;> rfl

/-- Claim C4, counterexample.  The claim says every public wrapper method
issues exactly one blocking HTTP call per invocation, but `invoices` is a
public wrapper and, against a transport whose first page is non-empty and
whose second page is empty, one invocation issues two HTTP calls. -/
theorem invoices_issues_two_calls :
    (exampleHarvest.invoices t4 noFilters PagesArg.countFrom1 10).map
      (fun r => r.2.1.length) = some 2 := rfl

/-- Claim C4, amended.  Every embedded public wrapper method except
`invoices` issues exactly one blocking HTTP call per invocation (when an
auth mode was selected at construction); `invoices` instead issues one call
per page it fetches. -/
theorem wrappers_issue_single_call (t : Transport) (h : Harvest) (mode : AuthMode)
    (hm : h.auth = some mode) :
    (∀ method path data, (h.request t method path data).trace.length = 1) ∧
    (∀ us, (h.contacts t us).trace.length = 1) ∧
    (∀ cid, (h.get_contact t cid).trace.length = 1) ∧
    (∀ cid kwargs, (h.update_contact t cid kwargs).trace.length = 1) ∧
    (∀ cid, (h.delete_contact t cid).trace.length = 1) ∧
    (∀ iid, (h.get_invoice t iid).trace.length = 1) := by
  have key : ∀ method path data, (h.request t method path data).trace.length = 1 := by
    intro m p d
    rw [request_trace_single t h mode m p d hm]
    rfl
  refine ⟨key, ?_, ?_, ?_, ?_, ?_⟩
  · intro us; cases us <;> exact key _ _ _
  · intro cid; exact key _ _ _
  · intro cid kwargs; exact key _ _ _
  · intro cid; exact key _ _ _
  · intro iid; exact key _ _ _

/-- Witness for the amended claim C4 at a concrete wrapper call. -/
theorem wrappers_issue_single_call_witness :
    (exampleHarvest.get_contact t1 "1").trace.length = 1 :=
  (wrappers_issue_single_call t1 exampleHarvest AuthMode.basic rfl).2.2.1 "1"

/-- Claim C6.  `get_contact` returns exactly what the dispatcher returns for
a GET of `/contacts/ + contact_id` (no validation or transformation), and
likewise `update_contact` for a PUT with its keyword payload and
`delete_contact` for a DELETE; the single issued request carries the URL
formed by concatenating the stored uri, `/contacts/` and the contact id,
and the expected method. -/
theorem contact_methods_url_and_passthrough (t : Transport) (h : Harvest)
    (mode : AuthMode) (contact_id : String) (kwargs : List (String × Json))
    (hm : h.auth = some mode) :
    h.get_contact t contact_id = h.request t "GET" ("/contacts/" ++ contact_id) none ∧
    h.update_contact t contact_id kwargs =
      h.request t "PUT" ("/contacts/" ++ contact_id) (some (Json.obj kwargs)) ∧
    h.delete_contact t contact_id =
      h.request t "DELETE" ("/contacts/" ++ contact_id) none ∧
    (h.get_contact t contact_id).trace =
      [h.builtRequest mode "GET" ("/contacts/" ++ contact_id) none] ∧
    (h.update_contact t contact_id kwargs).trace =
      [h.builtRequest mode "PUT" ("/contacts/" ++ contact_id) (some (Json.obj kwargs))] ∧
    (h.delete_contact t contact_id).trace =
      [h.builtRequest mode "DELETE" ("/contacts/" ++ contact_id) none] ∧
    (∀ method data,
      (h.builtRequest mode method ("/contacts/" ++ contact_id) data).url =
        h.uri ++ ("/contacts/" ++ contact_id)) ∧
    (h.builtRequest mode "GET" ("/contacts/" ++ contact_id) none).method = "GET" ∧
    (h.builtRequest mode "PUT" ("/contacts/" ++ contact_id)
      (some (Json.obj kwargs))).method = "PUT" ∧
    (h.builtRequest mode "DELETE" ("/contacts/" ++ contact_id) none).method = "DELETE" := by
  refine ⟨rfl, rfl, rfl, ?_, ?_, ?_, ?_, ?_, ?_, ?_⟩
  · exact request_trace_single t h mode _ _ _ hm
  · exact request_trace_single t h mode _ _ _ hm
  · exact request_trace_single t h mode _ _ _ hm
  · intro method data; cases mode <;> rfl
  · cases mode <;> rfl
  · cases mode <;> rfl
  · cases mode <;> rfl

/-- Witness for claim C6 at a concrete contact id. -/
theorem contact_methods_url_and_passthrough_witness :
    (exampleHarvest.get_contact t1 "7").trace =
      [exampleHarvest.builtRequest AuthMode.basic "GET" ("/contacts/" ++ "7") none] :=
  (contact_methods_url_and_passthrough t1 exampleHarvest AuthMode.basic "7" [] rfl).2.2.2.1

/-- The default-pages loop of `invoices` never changes the instance it
threads: when it terminates within its fuel, the final state equals the
starting state. -/
theorem invoicesLoop_self (t : Transport) (qs : String) :
    ∀ fuel h page acc tr r, invoicesLoop t h qs fuel page acc tr = some r → r.2.2 = h := by
  intro fuel
  induction fuel with
  | zero => intro h page acc tr r hr; cases hr
  | succ n ih =>
    intro h page acc tr r hr
    simp only [invoicesLoop] at hr
    cases hres : (h.request t "GET" ("/invoices?page=" ++ toString page ++ qs) none).result with
    | error e =>
      rw [hres] at hr
      cases hr
      exact request_self t h "GET" _ none
    | ok v =>
      rw [hres] at hr
      dsimp only at hr
      cases hv : v.truthy with
      | false =>
        rw [hv] at hr
        simp only [Bool.false_eq_true, if_false] at hr
        cases hr
        exact request_self t h "GET" _ none
      | true =>
        rw [hv] at hr
        simp only [if_true] at hr
        cases hext : pyExtend acc v with
        | error e =>
          rw [hext] at hr
          cases hr
          exact request_self t h "GET" _ none
        | ok acc2 =>
          rw [hext] at hr
          have := ih (h.request t "GET" ("/invoices?page=" ++ toString page ++ qs) none).self
            (page + 1) acc2 (tr ++ (h.request t "GET" ("/invoices?page=" ++ toString page ++ qs) none).trace) r hr
          rw [this, request_self]

/-- The explicit-pages loop of `invoices` also leaves the threaded instance
unchanged. -/
theorem invoicesLoopList_self (t : Transport) (qs : String) :
    ∀ ps h acc tr, (invoicesLoopList t h qs ps acc tr).2.2 = h := by
  intro ps
  induction ps with
  | nil => intro h acc tr; rfl
  | cons p rest ih =>
    intro h acc tr
    simp only [invoicesLoopList]
    cases hres : (h.request t "GET" ("/invoices?page=" ++ toString p ++ qs) none).result with
    | error e => exact request_self t h "GET" _ none
    | ok v =>
      dsimp only
      cases hv : v.truthy with
      | false =>
        simp only [Bool.false_eq_true, if_false]
        exact request_self t h "GET" _ none
      | true =>
        simp only [if_true]
        cases hext : pyExtend acc v with
        | error e => exact request_self t h "GET" _ none
        | ok acc2 =>
          rw [ih]
          exact request_self t h "GET" _ none

/-- Claim C7.  Every embedded request-issuing method leaves every field of
the `Harvest` instance unchanged, whether the call returns normally or
raises: the instance state after the call equals the instance before it. -/
theorem request_methods_preserve_state (t : Transport) (h : Harvest) :
    (∀ method path data, (h.request t method path data).self = h) ∧
    (∀ us, (h.contacts t us).self = h) ∧
    (∀ cid, (h.get_contact t cid).self = h) ∧
    (∀ cid kwargs, (h.update_contact t cid kwargs).self = h) ∧
    (∀ cid, (h.delete_contact t cid).self = h) ∧
    (∀ iid, (h.get_invoice t iid).self = h) ∧
    (∀ kw pg fuel, (h.invoices t kw pg fuel).map (fun r => r.2.2) =
      (h.invoices t kw pg fuel).map (fun _ => h)) := by
  refine ⟨fun m p d => request_self t h m p d, ?_, ?_, ?_, ?_, ?_, ?_⟩
  · intro us; cases us <;> exact request_self t h _ _ _
  · intro cid; exact request_self t h _ _ _
  · intro cid kwargs; exact request_self t h _ _ _
  · intro cid; exact request_self t h _ _ _
  · intro iid; exact request_self t h _ _ _
  · intro kw pg fuel
    cases pg with
    | countFrom1 =>
      cases hres : invoicesLoop t h (invoiceQs kw) fuel 1 [] [] with
      | none => simp [Harvest.invoices, hres]
      | some r =>
        simp [Harvest.invoices, hres]
        exact invoicesLoop_self t (invoiceQs kw) fuel h 1 [] [] r hres
    | explicit ps =>
      simp [Harvest.invoices]
      exact invoicesLoopList_self t (invoiceQs kw) ps h [] []

/-- Pagination invariant of the default `invoices` loop: if the server
returns the JSON array `pages p` for each page `p` from `start` to
`N = start + k`, page `N` is empty and the pages before it are not, then the
loop starting at `start` with enough fuel requests pages `start..N` in order
and accumulates the non-empty pages. -/
theorem invoicesLoop_pagination (t : Transport) (h : Harvest) (qs : String)
    (pages : Nat → List Json) (req : Nat → HttpRequest) (N : Nat)
    (hserve : ∀ p, 1 ≤ p → p ≤ N →
      h.request t "GET" ("/invoices?page=" ++ toString p ++ qs) none =
        { result := Except.ok (PyVal.json (Json.arr (pages p))), trace := [req p], self := h })
    (hempty : pages N = [])
    (hne : ∀ p, 1 ≤ p → p < N → pages p ≠ []) :
    ∀ k start, 1 ≤ start → start + k = N → ∀ fuel, k + 1 ≤ fuel → ∀ acc tr,
      invoicesLoop t h qs fuel start acc tr =
        some (Except.ok (acc ++ ((List.range' start k).map pages).flatten),
              tr ++ (List.range' start (k + 1)).map req, h) := by
  intro k
  induction k with
  | zero =>
    intro start h1 hN fuel hf acc tr
    obtain ⟨f, rfl⟩ : ∃ f, fuel = f + 1 := ⟨fuel - 1, by omega⟩
    have hs : pages start = [] := by
      have hsn : start = N := by omega
      rw [hsn]; exact hempty
    simp only [invoicesLoop]
    rw [hserve start h1 (by omega), hs]
    dsimp only
    rw [if_neg (by decide)]
    simp [List.range'_succ]
  | succ n ih =>
    intro start h1 hN fuel hf acc tr
    obtain ⟨f, rfl⟩ : ∃ f, fuel = f + 1 := ⟨fuel - 1, by omega⟩
    have hsne : pages start ≠ [] := hne start h1 (by omega)
    have htr : (PyVal.json (Json.arr (pages start))).truthy = true := by
      simp [PyVal.truthy, Json.truthy, hsne]
    simp only [invoicesLoop]
    rw [hserve start h1 (by omega)]
    dsimp only
    rw [if_pos htr]
    dsimp only [pyExtend]
    rw [ih (start + 1) (by omega) (by omega) f (by omega) (acc ++ pages start) (tr ++ [req start])]
    simp [List.range'_succ, List.append_assoc]

/-- Claim C5.  When `invoices` is called without an explicit `pages`
argument and the server answers each page `p ≤ N` with the JSON array
`pages p`, where page `N ≥ 1` is the first empty page, the call terminates
(given fuel at least `N`), requests pages `1` through `N` in increasing
order, and returns the concatenation of the non-empty pages `1` through
`N - 1` in that order, with the instance unchanged. -/
theorem invoices_pagination_terminates_and_concatenates (t : Transport)
    (h : Harvest) (kw : InvoiceFilters) (pages : Nat → List Json)
    (req : Nat → HttpRequest) (N : Nat) (hN : 1 ≤ N)
    (hserve : ∀ p, 1 ≤ p → p ≤ N →
      h.request t "GET" ("/invoices?page=" ++ toString p ++ invoiceQs kw) none =
        { result := Except.ok (PyVal.json (Json.arr (pages p))), trace := [req p], self := h })
    (hempty : pages N = [])
    (hne : ∀ p, 1 ≤ p → p < N → pages p ≠ [])
    (fuel : Nat) (hfuel : N ≤ fuel) :
    h.invoices t kw PagesArg.countFrom1 fuel =
      some (Except.ok (((List.range' 1 (N - 1)).map pages).flatten),
            (List.range' 1 N).map req, h) := by
  have hrun := invoicesLoop_pagination t h (invoiceQs kw) pages req N hserve hempty hne
    (N - 1) 1 (by omega) (by omega) fuel (by omega) [] []
  have hN1 : N - 1 + 1 = N := by omega
  rw [hN1] at hrun
  simp only [Harvest.invoices]
  rw [hrun]
  simp

/-- The page request built against the example instance for page `p` with no
filters. -/
def pageReqW (p : Nat) : HttpRequest :=
  exampleHarvest.builtRequest AuthMode.basic "GET"
    ("/invoices?page=" ++ toString p ++ invoiceQs noFilters) none

/-- The pages the transport `t4` serves: one invoice on page 1, nothing
after. -/
def pagesW (p : Nat) : List Json := if p = 1 then [Json.null] else []

/-- Witness for claim C5 with `N = 2` against the concrete transport
`t4`. -/
theorem invoices_pagination_witness :
    exampleHarvest.invoices t4 noFilters PagesArg.countFrom1 2 =
      some (Except.ok (((List.range' 1 (2 - 1)).map pagesW).flatten),
            (List.range' 1 2).map pageReqW, exampleHarvest) :=
  invoices_pagination_terminates_and_concatenates t4 exampleHarvest noFilters
    pagesW pageReqW 2 (by decide)
    (fun p h1 h2 => by interval_cases p <;> rfl)
    rfl
    (fun p h1 h2 => by interval_cases p; exact List.cons_ne_nil _ _)
    2 (by decide)

/-- Claim C8.  For every uri whose `urlparse` yields an empty scheme or an
empty netloc, the constructor raises `HarvestError`; for every uri whose
parse yields both components non-empty, construction succeeds and the stored
uri equals the input with trailing `/` characters stripped. -/
theorem init_uri_validation (uri : String)
    (email password client_id token : Option String) (flag : Bool)
    (scheme netloc : String)
    (hp : urlsplitSN uri = Except.ok (scheme, netloc)) :
    ((scheme = "" ∨ netloc = "") →
      harvestInit uri email password client_id token flag =
        Except.error (Exc.harvestError ("Invalid harvest uri \x22" ++ uri ++ "\x22."))) ∧
    (scheme ≠ "" → netloc ≠ "" →
      ∃ h, harvestInit uri email password client_id token flag = Except.ok h ∧
        h.uri = pyRstrip uri '/') := by
  constructor
  · intro hv
    simp only [harvestInit, hp]
    rw [if_pos hv]
  · intro hs hn
    simp only [harvestInit, hp]
    rw [if_neg (by simp [hs, hn])]
    split
    · exact ⟨_, rfl, rfl⟩
    · split
      · exact ⟨_, rfl, rfl⟩
      · exact ⟨_, rfl, rfl⟩

/-- Witness for claim C8: one invalid and one valid concrete uri. -/
theorem init_uri_validation_witness :
    (harvestInit "example.com" none none none none true =
      Except.error (Exc.harvestError ("Invalid harvest uri \x22example.com\x22."))) ∧
    (∃ h, harvestInit "http://example.com/" none none none none true = Except.ok h ∧
      h.uri = pyRstrip "http://example.com/" '/') :=
  ⟨(init_uri_validation "example.com" none none none none true "" "" rfl).1 (Or.inl rfl),
   (init_uri_validation "http://example.com/" none none none none true
     "http" "example.com" rfl).2 (by decide) (by decide)⟩

/-- Claim C9.  With a valid uri but neither a truthy email/password pair nor
a truthy client-id/token pair, construction succeeds with no auth mode set,
and every subsequent request-issuing method raises `AttributeError` (from
reading `self.auth` before the `try` block) rather than `HarvestError`,
issuing no HTTP request at all. -/
theorem missing_credentials_attribute_error (uri : String)
    (email password client_id token : Option String) (flag : Bool)
    (scheme netloc : String)
    (hp : urlsplitSN uri = Except.ok (scheme, netloc))
    (hs : scheme ≠ "") (hn : netloc ≠ "")
    (hb : (truthy email && truthy password) = false)
    (ho : (truthy client_id && truthy token) = false) :
    ∃ h, harvestInit uri email password client_id token flag = Except.ok h ∧
      h.auth = none ∧
      (∀ t method path data,
        (h.request t method path data).result =
          Except.error (Exc.attributeError "_Harvest__auth") ∧
        (h.request t method path data).trace = []) ∧
      (∀ t cid, (h.get_contact t cid).result =
        Except.error (Exc.attributeError "_Harvest__auth")) ∧
      (∀ t cid, (h.delete_contact t cid).result =
        Except.error (Exc.attributeError "_Harvest__auth")) ∧
      (∀ t kw fuel, h.invoices t kw PagesArg.countFrom1 (fuel + 1) =
        some (Except.error (Exc.attributeError "_Harvest__auth"), [], h)) := by
  refine ⟨{ uri := pyRstrip uri '/', headers := baseHeaders, auth := none,
            email := none, password := none, client_id := none, token := none },
          ?_, rfl, ?_, ?_, ?_, ?_⟩
  · simp only [harvestInit, hp]
    rw [if_neg (by simp [hs, hn])]
    simp [hb, ho]
  · intro t m p d; exact ⟨rfl, rfl⟩
  · intro t cid; rfl
  · intro t cid; rfl
  · intro t kw fuel; rfl

/-- Witness for claim C9 at a concrete credential-free construction. -/
theorem missing_credentials_attribute_error_witness :
    ∃ h, harvestInit "http://x" none none none none true = Except.ok h ∧
      h.auth = none ∧
      (∀ t method path data,
        (h.request t method path data).result =
          Except.error (Exc.attributeError "_Harvest__auth") ∧
        (h.request t method path data).trace = []) ∧
      (∀ t cid, (h.get_contact t cid).result =
        Except.error (Exc.attributeError "_Harvest__auth")) ∧
      (∀ t cid, (h.delete_contact t cid).result =
        Except.error (Exc.attributeError "_Harvest__auth")) ∧
      (∀ t kw fuel, h.invoices t kw PagesArg.countFrom1 (fuel + 1) =
        some (Except.error (Exc.attributeError "_Harvest__auth"), [], h)) :=
  missing_credentials_attribute_error "http://x" none none none none true
    "http" "x" rfl (by decide) (by decide) rfl rfl

/-- Claim C10.  The module-level `status` function is total (it never
raises): it returns the value under the `status` key of the decoded JSON
response, and the empty dict when the request raises, when the body does not
decode, when the decoded value has no `status` key, or when the decoded
value is not a dict at all. -/
theorem status_never_raises (e : Exc) (r : Response)
    (kvs : List (String × Json)) (v : Json) :
    status (GetOutcome.exn e) = Json.obj [] ∧
    (r.json = none → status (GetOutcome.ok r) = Json.obj []) ∧
    (r.json = some (Json.obj kvs) → jsonLookup kvs "status" = some v →
      status (GetOutcome.ok r) = v) ∧
    (r.json = some (Json.obj kvs) → jsonLookup kvs "status" = none →
      status (GetOutcome.ok r) = Json.obj []) ∧
    (∀ xs, r.json = some (Json.arr xs) → status (GetOutcome.ok r) = Json.obj []) := by
  refine ⟨rfl, ?_, ?_, ?_, ?_⟩
  · intro hj; simp [status, hj]
  · intro hj hk; simp [status, hj, hk]
  · intro hj hk; simp [status, hj, hk]
  · intro xs hj; simp [status, hj]

/-- Witness for claim C10 at a concrete decoded body with a `status`
key. -/
theorem status_never_raises_witness :
    status (GetOutcome.ok { status := 200, body := "",
                            json := some (Json.obj [("status", Json.str "ok")]) }) =
      Json.str "ok" :=
  (status_never_raises (Exc.transport "down")
    { status := 200, body := "", json := some (Json.obj [("status", Json.str "ok")]) }
    [("status", Json.str "ok")] (Json.str "ok")).2.2.1 rfl rfl
